import Mathlib

/-!
Verification of the server-side relay engine of a C++ chat server
(`src/server.cpp`, `src/file_transfer.cpp`, `src/utils.cpp`,
`src/encryption.hpp`).

Shallow embedding conventions:
* `std::string` is modelled as `List Char`.
* The registry `std::map<std::string, ClientInfo>` is modelled as an
  association list `List (List Char × ClientInfo)`; `std::map` keeps its
  keys sorted and unique, which appears as explicit invariants
  (`RegSorted`, pairwise-distinct keys) where a proof needs them.
* Network effects are reified as a list of `SrvAct` values; a function
  that may be terminated by an uncaught C++ exception returns the
  `Outcome.fatal` marker (an exception escaping a detached thread calls
  `std::terminate`, killing the whole process).
* The file-relay loop is driven by a trace of per-iteration I/O
  outcomes: each element `(n, ok)` records that `recv` on the sender
  socket returned `n` bytes (`n = 0` models `recv <= 0`, i.e. error or
  orderly shutdown) and that the forwarding `send` to the recipient
  returned a positive count (`ok = true`) or an error (`ok = false`).
-/

/-- The single-quote character (ASCII 39), used by several server
message strings. -/
def squote : Char := Char.ofNat 39

/-- `Utils::trim` (utils.cpp:94-100): removes leading and trailing
space characters (`' '` only: `find_first_not_of(' ')` /
`find_last_not_of(' ')`); a string of only spaces becomes empty.
Dropping spaces from the front and then from the back is equivalent to
the substr-by-indices computation of the source. -/
def trim (s : List Char) : List Char :=
  ((s.dropWhile (fun c => c = ' ')).reverse.dropWhile (fun c => c = ' ')).reverse

/-- `Utils::split` (utils.cpp:67-77): tokenize by a delimiter with
`std::getline` semantics: `"a b"` gives `["a","b"]`, `"a  b"` gives
`["a","","b"]`, a trailing delimiter produces no trailing empty token,
and the empty string gives no tokens. -/
def splitChar (delim : Char) : List Char → List (List Char)
  | [] => []
  | c :: cs =>
    if c = delim then [] :: splitChar delim cs
    else
      match splitChar delim cs with
      | [] => [[c]]
      | t :: ts => (c :: t) :: ts

/-- C-locale `isalnum`: decimal digits and ASCII letters. -/
def isalnumC (c : Char) : Bool :=
  ('0' ≤ c && c ≤ '9') || ('A' ≤ c && c ≤ 'Z') || ('a' ≤ c && c ≤ 'z')

/-- `ChatServer::isValidUsername` (server.cpp:491-502): nonempty, at
most 20 characters, every character alphanumeric or `_` or `-`. -/
def isValidUsername (u : List Char) : Bool :=
  if u = [] || u.length > 20 then false
  else u.all (fun c => isalnumC c || c = '_' || c = '-')

/-- C-locale `isspace`, used by `std::stol` to skip leading
whitespace. -/
def isspaceC (c : Char) : Bool :=
  c = ' ' || c = '\t' || c = '\n' || (c = Char.ofNat 11) || (c = Char.ofNat 12) || c = '\r'

/-- Digit-run parser backing `stol`: reads the maximal leading run of
decimal digits; an empty run means `std::stol` throws
`std::invalid_argument`, modelled as `none`. -/
def digitsToInt (s : List Char) : Option Int :=
  let ds := s.takeWhile (fun c => '0' ≤ c && c ≤ '9')
  if ds = [] then none
  else some (ds.foldl (fun a c => a * 10 + (Int.ofNat c.toNat - 48)) 0)

/-- Bounds of `long` on the target platform (LP64 Linux). -/
def LONG_MAX : Int := 9223372036854775807

/-- Lower bound of `long` on the target platform (LP64 Linux). -/
def LONG_MIN : Int := -9223372036854775808

/-- `std::stol` on base 10 (called at server.cpp:356): skip leading
whitespace, optional sign, then a nonempty digit run; trailing
non-digits are ignored.  `none` models a throw:
`std::invalid_argument` when there is no digit, `std::out_of_range`
when the signed value falls outside `[LONG_MIN, LONG_MAX]` — either
exception is uncaught in the server and terminates the process. -/
def stol (s : List Char) : Option Int :=
  let chk : Int → Option Int := fun n =>
    if n < LONG_MIN || LONG_MAX < n then none else some n
  match s.dropWhile isspaceC with
  | '+' :: rest => (digitsToInt rest).bind chk
  | '-' :: rest => (digitsToInt rest).bind (fun n => chk (-n))
  | other => (digitsToInt other).bind chk

/-- `ClientInfo` (server.hpp): the per-client record stored in the
registry.  The `sockaddr_in` field is informational and omitted. -/
structure ClientInfo where
  socket_fd : Nat
  username : List Char
deriving DecidableEq

/-- The registry `std::map<std::string, ClientInfo> clients`
(server.hpp): association list, kept sorted with unique keys by the
`std::map` operations. -/
abbrev Registry := List (List Char × ClientInfo)

/-- `std::string::operator<`: lexicographic comparison by character. -/
def lexLt : List Char → List Char → Bool
  | [], [] => false
  | [], _ :: _ => true
  | _ :: _, [] => false
  | a :: as, b :: bs => if a < b then true else if b < a then false else lexLt as bs

/-- `clients.find(k)` (server.cpp:169, 256, 414, 429): point lookup. -/
def mapFind (reg : Registry) (k : List Char) : Option ClientInfo :=
  (reg.find? (fun p => p.1 = k)).map (fun p => p.2)

/-- `clients[username] = client` (server.cpp:470): `std::map`
subscript-assign inserts at the sorted position, or overwrites an
existing entry with the same key. -/
def mapInsert (k : List Char) (v : ClientInfo) : Registry → Registry
  | [] => [(k, v)]
  | (k', v') :: rest =>
    if lexLt k k' then (k, v) :: (k', v') :: rest
    else if k = k' then (k, v) :: rest
    else (k', v') :: mapInsert k v rest

/-- `clients.erase(username)` (server.cpp:479): removes the (unique)
entry with the given key; removing the first match coincides with
`std::map::erase` on any registry with pairwise-distinct keys. -/
def mapErase (k : List Char) : Registry → Registry
  | [] => []
  | (k', v') :: rest => if k' = k then rest else (k', v') :: mapErase k rest

/-- The `std::map` representation invariant: keys strictly sorted. -/
abbrev RegSorted (reg : Registry) : Prop :=
  reg.Chain' (fun p q => lexLt p.1 q.1 = true)

/-- `Encryption::isEnabled()` (encryption.hpp): hard-coded `false`, so
every encryption branch in the server is dead code. -/
def encryptionEnabled : Bool := false

/-- `Encryption::DEFAULT_KEY` (encryption.hpp). -/
def DEFAULT_KEY : List Char := "NetworkChat2025!SecureKey#".data

/-- `Encryption::encrypt` (encryption.hpp): XOR each byte with the
cycled key. -/
def xorEncrypt (s : List Char) : List Char :=
  s.enum.map (fun p =>
    Char.ofNat (p.2.toNat ^^^ (DEFAULT_KEY.getD (p.1 % DEFAULT_KEY.length) ' ').toNat))

/-- The `if (Encryption::isEnabled()) msg = Encryption::encrypt(msg);`
pattern appearing at each send site. -/
def encIf (m : List Char) : List Char :=
  if encryptionEnabled then xorEncrypt m else m

-- Sanity examples for the utility layer (they mirror the documented
-- examples in utils.cpp).
example : trim "  hello  ".data = "hello".data := by decide
example : trim "   ".data = [] := by decide
example : trim "alice\n".data = "alice\n".data := by decide
example : splitChar ' ' "hello world test".data =
    ["hello".data, "world".data, "test".data] := by decide
example : splitChar ' ' "a  b".data = ["a".data, [], "b".data] := by decide
example : splitChar ' ' "a b ".data = ["a".data, "b".data] := by decide
example : splitChar ' ' [] = [] := by decide
example : isValidUsername "alice_01-X".data = true := by decide
example : isValidUsername "bad name".data = false := by decide
example : isValidUsername [] = false := by decide
example : stol "123kb".data = some 123 := by decide
example : stol "  -42".data = some (-42) := by decide
example : stol "abc".data = none := by decide
example : stol "+7".data = some 7 := by decide
example : stol "9223372036854775807".data = some LONG_MAX := by decide
example : stol "99999999999999999999".data = none := by decide
example : stol "-99999999999999999999".data = none := by decide

/-- A network side effect performed by the server on behalf of one
inbound line. -/
inductive SrvAct where
  | sendSock (sock : Nat) (msg : List Char)
  | closeSock (sock : Nat)
  | relayBytes (senderSock recipSock : Nat) (n : Nat)
deriving DecidableEq

/-- Result of processing one inbound line (server.cpp:315-384).
`fatal` marks an uncaught C++ exception: `processMessage` runs on a
detached client thread with no enclosing try/catch, so an exception
escaping it calls `std::terminate` and aborts the whole server
process.  `stuck` marks a run whose relay I/O trace is too short to
determine the outcome (the model gives no verdict there). -/
inductive Outcome where
  | ok (acts : List SrvAct)
  | fatal
  | stuck
deriving DecidableEq

-- Message strings of server.cpp, built with `squote` for the
-- single-quote character.

/-- server.cpp:159. -/
def errInvalidUserMsg : List Char :=
  "ERROR: Invalid username. Use only alphanumeric, _, and -".data

/-- server.cpp:170. -/
def errTakenMsg (u : List Char) : List Char :=
  "ERROR: Username ".data ++ [squote] ++ u ++ [squote] ++ " is already taken".data

/-- server.cpp:183. -/
def welcomeMsg (u : List Char) : List Char :=
  "Welcome ".data ++ u ++ "! Type /list, /quit, @user msg, /sendfile user file".data

/-- server.cpp:190. -/
def joinMsg (u : List Char) : List Char := u ++ " joined the chat!".data

/-- server.cpp:263. -/
def notOnlineMsg (u : List Char) : List Char :=
  "ERROR: User ".data ++ [squote] ++ u ++ [squote] ++ " is not online".data

/-- server.cpp:346. -/
def usageMsg : List Char := "Usage: /sendfile <username> <filename> <file_size>".data

/-- server.cpp:360. -/
def sizeErrMsg : List Char := "ERROR: Invalid file size (max 10MB)".data

/-- server.cpp:335. -/
def atFormatErrMsg : List Char := "ERROR: Invalid format. Use: @username message".data

/-- server.cpp:373. -/
def goodbyeMsg (u : List Char) : List Char := "Goodbye ".data ++ u ++ "!".data

/-- server.cpp:291. -/
def completeMsg : List Char := "[FILE] ✓ Transfer complete!".data

/-- server.cpp:296. -/
def transferFailedMsg : List Char := "ERROR: File transfer failed".data

/-- server.cpp:437. -/
def privErrMsg (t : List Char) : List Char :=
  "ERROR: User ".data ++ [squote] ++ t ++ [squote] ++ " not found or offline".data

/-- server.cpp:417. -/
def privToRecipientMsg (sender m : List Char) : List Char :=
  "[PRIVATE] ".data ++ sender ++ " -> You: ".data ++ m

/-- server.cpp:418. -/
def privToSenderMsg (target m : List Char) : List Char :=
  "[PRIVATE] You -> ".data ++ target ++ ": ".data ++ m

/-- One-decimal fixed-point rendering `num/den`, backing
`formatFileSize`.  The C++ renders with `double` division and
`snprintf("%.1f")`; this integer model rounds the tenths digit half
up.  No claim depends on this display string. -/
def oneDecimal (num den : Nat) : List Char :=
  let t := (num * 10 + den / 2) / den
  (toString (t / 10)).data ++ ".".data ++ (toString (t % 10)).data

/-- `Utils::formatFileSize` (utils.cpp:194-213): bytes, else KB or MB
with one decimal. -/
def formatFileSize (size : Int) : List Char :=
  if size < 1024 then (toString size).data ++ " B".data
  else if size < 1024 * 1024 then oneDecimal size.toNat 1024 ++ " KB".data
  else oneDecimal size.toNat (1024 * 1024) ++ " MB".data

/-- server.cpp:269-270. -/
def offerMsg (sender filename : List Char) (size : Int) : List Char :=
  "/file_offer from ".data ++ sender ++ " (".data ++ filename ++ ", ".data ++
    formatFileSize size ++ ") - Accept? (y/n)".data

/-- server.cpp:277. -/
def fileDataMsg (sender filename : List Char) (size : Int) : List Char :=
  "/file_data ".data ++ sender ++ " ".data ++ filename ++ " ".data ++ (toString size).data

/-- `FileTransferHandler::CHUNK_SIZE` (file_transfer.hpp): 8 KiB. -/
def CHUNK_SIZE : Nat := 8192

/-- The relay loop of `FileTransferHandler::streamFileData`
(file_transfer.cpp:64-100), driven by a trace of per-iteration I/O
outcomes.  One iteration: `recv` up to `min (file_size - total)
CHUNK_SIZE` bytes from the sender (`n = 0` models `recv <= 0`: the
loop reports failure); forward exactly those bytes with `send`
(`ok = false` models `send <= 0`: failure); otherwise add `n` to the
running total and continue until `total` reaches `file_size`.
Returns `some (success, total_transferred)`; `none` when the trace
ends before the loop does. -/
def relayLoop (file_size : Nat) (total : Nat) : List (Nat × Bool) → Option (Bool × Nat)
  | [] => if file_size ≤ total then some (true, total) else none
  | (n, sendOk) :: rest =>
    if file_size ≤ total then some (true, total)
    else if n = 0 then some (false, total)
    else if sendOk then relayLoop file_size (total + n) rest
    else some (false, total)

/-- `FileTransferHandler::streamFileData` (file_transfer.cpp:52-105):
runs the relay loop from `total_transferred = 0`. -/
def streamFileData (file_size : Nat) (tr : List (Nat × Bool)) : Option (Bool × Nat) :=
  relayLoop file_size 0 tr

/-- Trace well-formedness: each `recv` returns at most the number of
bytes requested, i.e. `min (file_size - total) CHUNK_SIZE` at that
iteration's running total. -/
def validTrace (file_size : Nat) : Nat → List (Nat × Bool) → Bool
  | _, [] => true
  | total, (n, _) :: rest =>
    (n ≤ min (file_size - total) CHUNK_SIZE) && validTrace file_size (total + n) rest

/-- A run of relay iterations in which every `recv` yielded bytes and
every `send` succeeded. -/
abbrev GoodSteps (l : List (Nat × Bool)) : Prop := ∀ p ∈ l, p.1 ≠ 0 ∧ p.2 = true

/-- Total bytes received over a run of relay iterations. -/
def sumBytes (l : List (Nat × Bool)) : Nat := (l.map (fun p => p.1)).sum

-- Relay sanity examples.
example : streamFileData 5 [(3, true), (2, true)] = some (true, 5) := by decide
example : streamFileData 5 [(3, true), (0, true)] = some (false, 3) := by decide
example : streamFileData 5 [(3, false), (2, true)] = some (false, 0) := by decide
example : streamFileData 0 [] = some (true, 0) := by decide
example : validTrace 5 0 [(3, true), (2, true)] = true := by decide
example : validTrace 5 0 [(6, true)] = false := by decide

/-- `ChatServer::broadcast` (server.cpp:391-404): send the (possibly
encrypted) message to every registered client except the sender, in
registry iteration order. -/
def broadcastActs (reg : Registry) (message sender : List Char) : List SrvAct :=
  let m := encIf message
  reg.filterMap (fun p =>
    if p.1 = sender then none else some (.sendSock p.2.socket_fd m))

/-- `ChatServer::sendPrivateMessage` (server.cpp:411-448): if the
target is registered, send tagged copies to the target and (if still
registered) the sender; otherwise send a not-found error to the
sender. -/
def sendPrivateMessage (reg : Registry) (target message sender : List Char) : List SrvAct :=
  match mapFind reg target with
  | some info =>
    [SrvAct.sendSock info.socket_fd (encIf (privToRecipientMsg sender message))] ++
      (match mapFind reg sender with
       | some si => [SrvAct.sendSock si.socket_fd (encIf (privToSenderMsg target message))]
       | none => [])
  | none =>
    match mapFind reg sender with
    | some si => [SrvAct.sendSock si.socket_fd (encIf (privErrMsg target))]
    | none => []

/-- `ChatServer::getActiveUsers` (server.cpp:455-463): fold the
registry keys into a comma-separated string; an empty registry yields
the sentinel `"No users online"`. -/
def getActiveUsers (reg : Registry) : List Char :=
  let users := reg.foldl
    (fun acc p => (if acc = [] then acc else acc ++ ", ".data) ++ p.1) []
  if users = [] then "No users online".data else users

/-- `ChatServer::registerClient` (server.cpp:468-472):
`clients[username] = client` under the registry mutex. -/
def registerClient (username : List Char) (client : ClientInfo) (reg : Registry) : Registry :=
  mapInsert username client reg

/-- `ChatServer::deregisterClient` (server.cpp:477-481):
`clients.erase(username)` under the registry mutex. -/
def deregisterClient (username : List Char) (reg : Registry) : Registry :=
  mapErase username reg

/-- `ChatServer::handleFileTransfer` (server.cpp:248-301): look up the
recipient; if absent, a single "not online" error goes back to the
sender.  Otherwise the offer notice and the `/file_data` prepare
signal go to the recipient, the relay loop moves the bytes, and both
parties get a terminal status message.  Returns `none` when the relay
trace is exhausted before the loop finishes. -/
def handleFileTransfer (reg : Registry) (sender_socket : Nat)
    (sender_username recipient_username filename : List Char)
    (file_size : Int) (tr : List (Nat × Bool)) : Option (List SrvAct) :=
  match mapFind reg recipient_username with
  | none => some [SrvAct.sendSock sender_socket (notOnlineMsg recipient_username)]
  | some rinfo =>
    let rs := rinfo.socket_fd
    match streamFileData file_size.toNat tr with
    | none => none
    | some (success, moved) =>
      some ([SrvAct.sendSock rs (offerMsg sender_username filename file_size),
             SrvAct.sendSock rs (fileDataMsg sender_username filename file_size),
             SrvAct.relayBytes sender_socket rs moved] ++
        (if success then
           [SrvAct.sendSock sender_socket completeMsg, SrvAct.sendSock rs completeMsg]
         else
           [SrvAct.sendSock sender_socket transferFailedMsg,
            SrvAct.sendSock rs transferFailedMsg]))

/-- `message.find(' ', 1)`: index of the first space at position ≥ 1
(server.cpp:329). -/
def findSpaceFrom1 (s : List Char) : Option Nat :=
  ((s.drop 1).findIdx? (fun c => c = ' ')).map (fun i => i + 1)

/-- `message.find(pre) == 0`: the message starts with the given
pattern (server.cpp:343). -/
def startsWithL (pat s : List Char) : Bool := s.take pat.length = pat

/-- `ChatServer::processMessage` (server.cpp:315-384): classify one
trimmed inbound line and produce its effects.  The `/sendfile` branch
calls `std::stol(parts[3])` with no surrounding try/catch; a
non-numeric size field therefore raises `std::invalid_argument`, which
escapes the detached client thread and terminates the process
(`Outcome.fatal`). -/
def processMessage (message sender_username : List Char) (sender_socket : Nat)
    (reg : Registry) (tr : List (Nat × Bool)) : Outcome :=
  if message = "/list".data then
    .ok [SrvAct.sendSock sender_socket (encIf ("Active users: ".data ++ getActiveUsers reg))]
  else if message.take 1 = ['@'] then
    match findSpaceFrom1 message with
    | some i =>
      let target := (message.drop 1).take (i - 1)
      let content := message.drop (i + 1)
      .ok (sendPrivateMessage reg target content sender_username)
    | none => .ok [SrvAct.sendSock sender_socket (encIf atFormatErrMsg)]
  else if startsWithL "/sendfile".data message then
    let parts := splitChar ' ' message
    if parts.length < 4 then .ok [SrvAct.sendSock sender_socket (encIf usageMsg)]
    else
      match stol (parts.getD 3 []) with
      | none => .fatal
      | some file_size =>
        if file_size ≤ 0 || file_size > 10 * 1024 * 1024 then
          .ok [SrvAct.sendSock sender_socket (encIf sizeErrMsg)]
        else
          match handleFileTransfer reg sender_socket sender_username
              (parts.getD 1 []) (parts.getD 2 []) file_size tr with
          | some acts => .ok acts
          | none => .stuck
  else if message = "/quit".data then
    .ok [SrvAct.sendSock sender_socket (encIf (goodbyeMsg sender_username))]
  else
    .ok (broadcastActs reg (sender_username ++ ": ".data ++ message) sender_username)

/-- Result of the authentication phase of `ChatServer::handleClient`
(server.cpp:154-192). -/
inductive AuthOutcome where
  | rejectedInvalid
  | rejectedTaken (u : List Char)
  | accepted (u : List Char)
deriving DecidableEq

/-- Authentication phase result: the outcome, the registry afterwards,
and the network effects performed. -/
structure AuthRes where
  outcome : AuthOutcome
  reg' : Registry
  acts : List SrvAct

/-- The authentication phase of `ChatServer::handleClient`
(server.cpp:154-192), run sequentially: trim the first payload into
the claimed username; reject bad format or a duplicate with a single
error message and a close; otherwise register, send the welcome, and
broadcast the join notice to everyone else. -/
def authenticate (payload : List Char) (sock : Nat) (reg : Registry) : AuthRes :=
  let username := trim payload
  if username = [] || !isValidUsername username then
    ⟨.rejectedInvalid, reg, [SrvAct.sendSock sock errInvalidUserMsg, SrvAct.closeSock sock]⟩
  else if (mapFind reg username).isSome then
    ⟨.rejectedTaken username, reg,
      [SrvAct.sendSock sock (errTakenMsg username), SrvAct.closeSock sock]⟩
  else
    let reg2 := registerClient username ⟨sock, username⟩ reg
    ⟨.accepted username, reg2,
      SrvAct.sendSock sock (encIf (welcomeMsg username)) ::
        broadcastActs reg2 (joinMsg username) username⟩

-- Sanity examples for the routing layer.
example : processMessage "/quit".data "alice".data 3 [] [] =
    .ok [SrvAct.sendSock 3 (goodbyeMsg "alice".data)] := by decide
example : processMessage "/sendfile bob a.txt 0".data "alice".data 3 [] [] =
    .ok [SrvAct.sendSock 3 sizeErrMsg] := by decide
example : processMessage "/sendfile bob".data "alice".data 3 [] [] =
    .ok [SrvAct.sendSock 3 usageMsg] := by decide
example : (authenticate "alice".data 3 []).outcome = .accepted "alice".data := by decide
example : (authenticate " alice ".data 3 []).outcome = .accepted "alice".data := by decide
example : (authenticate "alice\n".data 3 []).outcome = .rejectedInvalid := by decide

/-- Position of one client thread inside the registration section of
`ChatServer::handleClient`.  The duplicate check (server.cpp:167-176)
and the insert (`registerClient`, server.cpp:468-472) each take
`clients_mutex` separately, so each is one atomic step, but a thread
can be interleaved between its check and its insert. -/
inductive Phase where
  | atCheck
  | atInsert
  | doneSuccess
  | doneError
deriving DecidableEq

/-- Joint state of two client threads racing to register, plus the
shared registry. -/
structure RaceState where
  reg : Registry
  t1 : Phase
  t2 : Phase
deriving DecidableEq

/-- One atomic step of a registering thread: the locked duplicate
check (on duplicate it sends the error and closes → `doneError`),
or the locked `clients[username] = client` insert after a passed
check (→ `doneSuccess`, the thread proceeds to Active). -/
def stepThread (name : List Char) (sock : Nat) (reg : Registry) :
    Phase → Phase × Registry
  | .atCheck => if (mapFind reg name).isSome then (.doneError, reg) else (.atInsert, reg)
  | .atInsert => (.doneSuccess, mapInsert name ⟨sock, name⟩ reg)
  | p => (p, reg)

/-- Scheduler step: `false` runs thread 1, `true` runs thread 2; both
threads claim the same identity `name` from sockets `s1`, `s2`. -/
def raceStep (name : List Char) (s1 s2 : Nat) (st : RaceState) (who : Bool) : RaceState :=
  if who then
    let (p, r) := stepThread name s2 st.reg st.t2
    ⟨r, st.t1, p⟩
  else
    let (p, r) := stepThread name s1 st.reg st.t1
    ⟨r, p, st.t2⟩

/-- Run a schedule of interleaved steps from a starting state. -/
def raceRun (name : List Char) (s1 s2 : Nat) (sched : List Bool) (st : RaceState) :
    RaceState :=
  sched.foldl (raceStep name s1 s2) st

/-- Both threads start at the duplicate check with an empty registry. -/
def raceInit : RaceState := ⟨[], .atCheck, .atCheck⟩

/-- Helper for C9: erasing a key that occurs in no entry changes
nothing. -/
lemma mapErase_of_not_mem (x : List Char) (reg : Registry)
    (h : ∀ p ∈ reg, p.1 ≠ x) : mapErase x reg = reg := by
  induction reg with
  | nil => rfl
  | cons p rest ih =>
    have hp : p.1 ≠ x := h p (List.mem_cons_self p rest)
    simp only [mapErase, if_neg hp]
    exact congrArg (p :: ·) (ih (fun q hq => h q (List.mem_cons_of_mem p hq)))

/-- Helper for C9: on a registry with pairwise-distinct keys (the
`std::map` invariant), no entry with the erased key survives. -/
lemma mapErase_no_key (x : List Char) (reg : Registry)
    (h : reg.Pairwise (fun p q => p.1 ≠ q.1)) :
    ∀ p ∈ mapErase x reg, p.1 ≠ x := by
  induction reg with
  | nil => intro p hp; cases hp
  | cons q rest ih =>
    rcases List.pairwise_cons.mp h with ⟨hq, hrest⟩
    intro p hp
    by_cases hqx : q.1 = x
    · simp only [mapErase, if_pos hqx] at hp
      intro hpx
      exact hq p hp (by rw [hqx, hpx])
    · simp only [mapErase, if_neg hqx] at hp
      rcases List.mem_cons.mp hp with rfl | hp'
      · exact hqx
      · exact ih hrest p hp'

/-- C9: `deregisterClient` is idempotent — on any registry satisfying
the `std::map` unique-key invariant, erasing an identity twice leaves
the registry exactly as erasing it once does, and erasing an identity
held by no entry is a no-op. -/
theorem deregisterClient_idempotent (reg : Registry) (x : List Char)
    (h : reg.Pairwise (fun p q => p.1 ≠ q.1)) :
    deregisterClient x (deregisterClient x reg) = deregisterClient x reg ∧
    ((∀ p ∈ reg, p.1 ≠ x) → deregisterClient x reg = reg) := by
  constructor
  · exact mapErase_of_not_mem x _ (mapErase_no_key x reg h)
  · exact mapErase_of_not_mem x reg

/-- Witness for C9 at a concrete two-user registry. -/
theorem deregisterClient_idempotent_witness :
    deregisterClient "bob".data
        (deregisterClient "bob".data
          [("alice".data, ClientInfo.mk 3 "alice".data),
           ("bob".data, ClientInfo.mk 4 "bob".data)]) =
      deregisterClient "bob".data
        [("alice".data, ClientInfo.mk 3 "alice".data),
         ("bob".data, ClientInfo.mk 4 "bob".data)] ∧
    deregisterClient "carol".data
        [("alice".data, ClientInfo.mk 3 "alice".data),
         ("bob".data, ClientInfo.mk 4 "bob".data)] =
      [("alice".data, ClientInfo.mk 3 "alice".data),
       ("bob".data, ClientInfo.mk 4 "bob".data)] :=
  ⟨(deregisterClient_idempotent _ "bob".data (by decide)).1,
   (deregisterClient_idempotent _ "carol".data (by decide)).2 (by decide)⟩

/-- C1: the spec claims the absence check and the insert are one
atomic step, so of two concurrent registrations of the same identity
exactly one succeeds.  In the code the duplicate check
(server.cpp:167-176) and the insert (server.cpp:468-472) take the
mutex separately; under the schedule check₁, check₂, insert₁, insert₂
both threads pass the check and both reach success (the second insert
silently overwrites the first one's registry entry). -/
theorem registration_race_both_succeed :
    (raceRun "alice".data 1 2 [false, true, false, true] raceInit).t1 = .doneSuccess ∧
    (raceRun "alice".data 1 2 [false, true, false, true] raceInit).t2 = .doneSuccess ∧
    (raceRun "alice".data 1 2 [false, true, false, true] raceInit).reg =
      [("alice".data, ClientInfo.mk 2 "alice".data)] := by decide

/-- C2: the spec claims no single malformed line can abort the
server.  A `/sendfile` line whose size field has no leading digit
makes `std::stol` (server.cpp:356) throw `std::invalid_argument`;
nothing catches it, and an exception escaping the detached client
thread calls `std::terminate`, killing the whole process. -/
theorem processMessage_nonNumeric_fatal :
    processMessage "/sendfile bob file.txt abc".data "alice".data 5 [] [] =
      .fatal := by decide

/-- C3: the spec claims a `/sendfile` with a non-numeric size field
gets a usage/size error reply; instead `std::stol` throws and the
process dies, so no reply of any kind is produced. -/
theorem sendfile_nonNumeric_no_reply :
    processMessage "/sendfile carol pic.png big".data "dave".data 7 [] [] =
      .fatal := by decide

/-- C6: a transfer whose recipient is not registered fails
immediately: the only effect is the "not online" error to the sender —
no offer, no prepare signal, no relayed bytes, to anyone
(server.cpp:251-266). -/
theorem handleFileTransfer_recipient_absent (reg : Registry) (ssock : Nat)
    (sender recipient filename : List Char) (size : Int) (tr : List (Nat × Bool))
    (h : mapFind reg recipient = none) :
    handleFileTransfer reg ssock sender recipient filename size tr =
      some [SrvAct.sendSock ssock (notOnlineMsg recipient)] := by
  simp [handleFileTransfer, h]

/-- Witness for C6: `bob` is not registered, `alice` offers a file. -/
theorem handleFileTransfer_recipient_absent_witness :
    handleFileTransfer [("alice".data, ClientInfo.mk 1 "alice".data)] 1
        "alice".data "bob".data "a.txt".data 5 [] =
      some [SrvAct.sendSock 1 (notOnlineMsg "bob".data)] :=
  handleFileTransfer_recipient_absent _ _ _ _ _ _ _ (by decide)

/-- C8 counterexample: the sentinel for an empty registry is
`"No users online"` (capital N, server.cpp:462), not the
`"no users online"` the claim quotes. -/
theorem getActiveUsers_empty_sentinel_case :
    getActiveUsers [] = "No users online".data ∧
    (getActiveUsers [] == "no users online".data) = false := by decide

/-- Characterization of `isValidUsername`: nonempty, at most 20
characters, all characters alphanumeric, underscore or hyphen. -/
lemma isValidUsername_iff (u : List Char) :
    isValidUsername u = true ↔
      u ≠ [] ∧ u.length ≤ 20 ∧ ∀ c ∈ u, (isalnumC c || c = '_' || c = '-') = true := by
  rcases eq_or_ne u [] with rfl | hne
  · simp [isValidUsername]
  · by_cases hlen : u.length > 20
    · simp only [isValidUsername, hne, hlen]
      simp [Nat.lt_iff_add_one_le] at hlen ⊢
      omega
    · simp only [isValidUsername, hne, hlen]
      simp [List.all_eq_true, hne, Nat.not_lt.mp hlen]

/-- C10: `Utils::trim` strips only the space character, so an
otherwise-valid username followed by a trailing newline, tab or
carriage return survives trimming intact, fails the charset check,
and authentication rejects the connection with the invalid-username
error and a close, leaving the registry untouched. -/
theorem trailing_control_char_rejected (u : List Char) (c : Char) (sock : Nat)
    (reg : Registry) (hu : isValidUsername u = true)
    (hc : c = '\n' ∨ c = '\t' ∨ c = '\r') :
    trim (u ++ [c]) = u ++ [c] ∧
    isValidUsername (u ++ [c]) = false ∧
    authenticate (u ++ [c]) sock reg =
      ⟨.rejectedInvalid, reg,
        [SrvAct.sendSock sock errInvalidUserMsg, SrvAct.closeSock sock]⟩ := by
  obtain ⟨hne, hlen, hall⟩ := (isValidUsername_iff u).mp hu
  obtain ⟨a, u0, rfl⟩ : ∃ a u0, u = a :: u0 := by
    cases u with
    | nil => exact absurd rfl hne
    | cons a u0 => exact ⟨a, u0, rfl⟩
  have ha : ¬(a = ' ') := by
    intro h
    have := hall a (List.mem_cons_self a u0)
    rw [h] at this
    exact absurd this (by decide)
  have hcns : ¬(c = ' ') := by rcases hc with rfl | rfl | rfl <;> decide
  have htrim : trim ((a :: u0) ++ [c]) = (a :: u0) ++ [c] := by
    have h1 : List.dropWhile (fun x => x = ' ') ((a :: u0) ++ [c]) =
        (a :: u0) ++ [c] := by
      simp [List.dropWhile_cons, ha]
    have h2 : List.dropWhile (fun x => x = ' ') (((a :: u0) ++ [c]).reverse) =
        ((a :: u0) ++ [c]).reverse := by
      rw [List.reverse_append]
      simp [List.dropWhile_cons, hcns]
    simp only [trim, h1, h2, List.reverse_reverse]
  have hcbad : (isalnumC c || c = '_' || c = '-') = false := by
    rcases hc with rfl | rfl | rfl <;> decide
  have hvalid2 : isValidUsername ((a :: u0) ++ [c]) = false := by
    rw [Bool.eq_false_iff]
    intro htrue
    obtain ⟨-, -, hall2⟩ := (isValidUsername_iff _).mp htrue
    have hcm := hall2 c (by simp)
    rw [hcbad] at hcm
    exact Bool.false_ne_true hcm
  refine ⟨htrim, hvalid2, ?_⟩
  simp only [authenticate, htrim, hvalid2]
  simp

/-- Witness for C10: the payload `"alice\n"` is rejected even though
`"alice"` itself is a valid username. -/
theorem trailing_control_char_rejected_witness :
    trim ("alice".data ++ ['\n']) = "alice".data ++ ['\n'] ∧
    isValidUsername ("alice".data ++ ['\n']) = false ∧
    authenticate ("alice".data ++ ['\n']) 3 [] =
      ⟨.rejectedInvalid, [],
        [SrvAct.sendSock 3 errInvalidUserMsg, SrvAct.closeSock 3]⟩ :=
  trailing_control_char_rejected "alice".data '\n' 3 [] (by decide) (Or.inl rfl)

/-- C7: the trimmed first payload is the claimed identity; it is
accepted exactly when it is 1-20 characters of {letters, digits, `_`,
`-`} and collides with no registered identity, in which case it is
registered; otherwise the connection gets exactly one error message
followed by a close, and the registry is unchanged (server.cpp:147-192,
491-502). -/
theorem authenticate_spec (payload : List Char) (sock : Nat) (reg : Registry) :
    (∀ u, (authenticate payload sock reg).outcome = .accepted u →
       u = trim payload ∧ 1 ≤ u.length ∧ u.length ≤ 20 ∧
       (∀ c ∈ u, (isalnumC c || c = '_' || c = '-') = true) ∧
       mapFind reg u = none ∧
       (authenticate payload sock reg).reg' =
         registerClient u (ClientInfo.mk sock u) reg) ∧
    ((∀ u, ¬((authenticate payload sock reg).outcome = .accepted u)) →
       (authenticate payload sock reg).reg' = reg ∧
       ∃ e, (authenticate payload sock reg).acts =
         [SrvAct.sendSock sock e, SrvAct.closeSock sock]) := by
  by_cases hempty : trim payload = []
  · constructor
    · intro u hu
      exact absurd hu (by simp [authenticate, hempty])
    · intro _
      exact ⟨by simp [authenticate, hempty], errInvalidUserMsg,
        by simp [authenticate, hempty]⟩
  · by_cases hval : isValidUsername (trim payload) = true
    · by_cases h2 : mapFind reg (trim payload) = none
      · have hacc : (authenticate payload sock reg).outcome =
            .accepted (trim payload) := by
          simp [authenticate, hempty, hval, h2]
        constructor
        · intro u hu
          rw [hacc] at hu
          have huv : trim payload = u := by
            cases hu
            rfl
          subst huv
          obtain ⟨hne, hlen, hall⟩ := (isValidUsername_iff _).mp hval
          exact ⟨rfl, List.length_pos.mpr hne, hlen, hall, h2,
            by simp [authenticate, hempty, hval, h2]⟩
        · intro hno
          exact absurd hacc (hno (trim payload))
      · have hsome : (mapFind reg (trim payload)).isSome = true :=
          Option.ne_none_iff_isSome.mp h2
        constructor
        · intro u hu
          exact absurd hu (by simp [authenticate, hempty, hval, hsome])
        · intro _
          exact ⟨by simp [authenticate, hempty, hval, hsome],
            errTakenMsg (trim payload),
            by simp [authenticate, hempty, hval, hsome]⟩
    · have hvalf : isValidUsername (trim payload) = false :=
        Bool.eq_false_iff.mpr hval
      constructor
      · intro u hu
        exact absurd hu (by simp [authenticate, hvalf])
      · intro _
        exact ⟨by simp [authenticate, hvalf], errInvalidUserMsg,
          by simp [authenticate, hvalf]⟩

/-- Witness for C7: the fresh identity `"alice"` is accepted on an
empty registry. -/
theorem authenticate_spec_witness :
    "alice".data = trim "alice".data ∧
    mapFind [] "alice".data = none ∧
    (authenticate "alice".data 3 []).reg' =
      registerClient "alice".data (ClientInfo.mk 3 "alice".data) [] :=
  ⟨((authenticate_spec "alice".data 3 []).1 "alice".data (by decide)).1,
   ((authenticate_spec "alice".data 3 []).1 "alice".data (by decide)).2.2.2.2.1,
   ((authenticate_spec "alice".data 3 []).1 "alice".data (by decide)).2.2.2.2.2⟩

/-- Comma-separated rendering of a list of names, the specification of
the `users += ", "; users += name` fold in `getActiveUsers`. -/
def joinComma : List (List Char) → List Char
  | [] => []
  | [x] => x
  | x :: y :: xs => x ++ ", ".data ++ joinComma (y :: xs)

/-- Tail rendering: each further name preceded by `", "`. -/
def commaTail (l : List (List Char × ClientInfo)) : List Char :=
  l.foldr (fun p acc => ", ".data ++ p.1 ++ acc) []

/-- Helper for C8: from a nonempty accumulator the `getActiveUsers`
fold appends `", name"` for every entry. -/
lemma getActiveUsers_foldl (l : List (List Char × ClientInfo)) :
    ∀ acc : List Char, acc ≠ [] →
      l.foldl (fun acc p => (if acc = [] then acc else acc ++ ", ".data) ++ p.1) acc =
        acc ++ commaTail l := by
  induction l with
  | nil => intro acc _; simp [commaTail]
  | cons p l' ih =>
    intro acc hacc
    have hstep : (if acc = [] then acc else acc ++ ", ".data) ++ p.1 =
        acc ++ ", ".data ++ p.1 := by rw [if_neg hacc]
    rw [List.foldl_cons, hstep, ih (acc ++ ", ".data ++ p.1) (by simp), commaTail]
    simp [commaTail, List.append_assoc]

/-- Helper for C8: `joinComma` of the key list agrees with the first
key followed by the comma-prefixed tail. -/
lemma joinComma_eq_head_commaTail (p : List Char × ClientInfo)
    (l : List (List Char × ClientInfo)) :
    joinComma ((p :: l).map (fun q => q.1)) = p.1 ++ commaTail l := by
  induction l generalizing p with
  | nil => simp [joinComma, commaTail]
  | cons q l' ih =>
    rw [List.map_cons, List.map_cons, joinComma, commaTail]
    have ihq := ih q
    rw [List.map_cons] at ihq
    rw [ihq, commaTail]
    simp [List.append_assoc]

/-- C8 (amended): on a registry satisfying the `std::map` invariants
(sorted keys, usernames nonempty), `getActiveUsers` renders the
identities in sorted key order joined by `", "`, and an empty registry
yields the sentinel `"No users online"` (capital N) rather than an
empty list (server.cpp:455-463). -/
theorem getActiveUsers_spec (reg : Registry) (hs : RegSorted reg)
    (hne : ∀ p ∈ reg, p.1 ≠ []) :
    ((reg.map (fun p => p.1)).Chain' (fun a b => lexLt a b = true)) ∧
    (reg = [] → getActiveUsers reg = "No users online".data) ∧
    (reg ≠ [] → getActiveUsers reg = joinComma (reg.map (fun p => p.1))) := by
  refine ⟨?_, ?_, ?_⟩
  · exact (List.chain'_map (fun p : List Char × ClientInfo => p.1)).mpr hs
  · intro h; subst h; rfl
  · intro hnonempty
    cases reg with
    | nil => exact absurd rfl hnonempty
    | cons p rest =>
      have hp1 : p.1 ≠ [] := hne p (List.mem_cons_self p rest)
      have hfold :
          (p :: rest).foldl
            (fun acc q => (if acc = [] then acc else acc ++ ", ".data) ++ q.1) [] =
            p.1 ++ commaTail rest := by
        rw [List.foldl_cons]
        simp only [if_pos rfl, List.nil_append]
        exact getActiveUsers_foldl rest p.1 hp1
      have husers : p.1 ++ commaTail rest ≠ [] := by
        intro h
        exact hp1 (List.append_eq_nil.mp h).1
      rw [getActiveUsers]
      simp only [hfold, if_neg husers]
      exact (joinComma_eq_head_commaTail p rest).symm

/-- Witness for C8 at a sorted two-user registry. -/
theorem getActiveUsers_spec_witness :
    getActiveUsers
        [("alice".data, ClientInfo.mk 3 "alice".data),
         ("bob".data, ClientInfo.mk 4 "bob".data)] =
      joinComma ([("alice".data, ClientInfo.mk 3 "alice".data),
        ("bob".data, ClientInfo.mk 4 "bob".data)].map (fun p => p.1)) :=
  (getActiveUsers_spec
    [("alice".data, ClientInfo.mk 3 "alice".data),
     ("bob".data, ClientInfo.mk 4 "bob".data)]
    (List.chain'_cons.mpr ⟨by decide, List.chain'_singleton _⟩)
    (by decide)).2.2 (by decide)

/-- Helper for C4: on a well-formed trace the running total never
exceeds `file_size`, so a `(true, t)` result forces `t = file_size`. -/
lemma relayLoop_true_total (fs : Nat) (tr : List (Nat × Bool)) :
    ∀ total, validTrace fs total tr = true → total ≤ fs →
      ∀ t, relayLoop fs total tr = some (true, t) → t = fs := by
  induction tr with
  | nil =>
    intro total _ hle t h
    rw [relayLoop] at h
    split at h
    · cases h
      omega
    · cases h
  | cons p rest ih =>
    obtain ⟨n, b⟩ := p
    intro total hv hle t h
    simp only [validTrace, Bool.and_eq_true, decide_eq_true_eq] at hv
    obtain ⟨hv1, hv2⟩ := hv
    simp only [relayLoop] at h
    by_cases hfs : fs ≤ total
    · rw [if_pos hfs] at h
      simp only [Option.some.injEq, Prod.mk.injEq] at h
      omega
    · rw [if_neg hfs] at h
      by_cases hn : n = 0
      · rw [if_pos hn] at h
        simp at h
      · rw [if_neg hn] at h
        by_cases hb : b = true
        · rw [if_pos hb] at h
          have hle2 : total + n ≤ fs := by
            have := Nat.min_le_left (fs - total) CHUNK_SIZE
            omega
          exact ih (total + n) hv2 hle2 t h
        · rw [if_neg hb] at h
          simp at h

/-- Helper for C4: the loop consumes a run of fully successful
iterations whose bytes stay strictly below the target, accumulating
their sum. -/
lemma relayLoop_append_good (fs : Nat) (pre : List (Nat × Bool)) :
    ∀ total rest, GoodSteps pre → total + sumBytes pre < fs →
      relayLoop fs total (pre ++ rest) = relayLoop fs (total + sumBytes pre) rest := by
  induction pre with
  | nil =>
    intro total rest _ _
    simp [sumBytes]
  | cons p pre' ih =>
    obtain ⟨n, b⟩ := p
    intro total rest hg hlt
    have hn : n ≠ 0 := (hg (n, b) (List.mem_cons_self _ _)).1
    have hb : b = true := (hg (n, b) (List.mem_cons_self _ _)).2
    have hsum : sumBytes ((n, b) :: pre') = n + sumBytes pre' := by
      simp [sumBytes]
    have hfs : ¬ fs ≤ total := by rw [hsum] at hlt; omega
    rw [List.cons_append]
    simp only [relayLoop]
    rw [if_neg hfs, if_neg hn, if_pos hb]
    rw [ih (total + n) rest (fun q hq => hg q (List.mem_cons_of_mem _ hq))
      (by rw [hsum] at hlt; omega)]
    rw [hsum]
    congr 1
    omega

/-- Helper for C4: a run of fully successful iterations whose bytes
sum exactly to the target makes the loop return `(true, file_size)`,
whatever trace follows. -/
lemma relayLoop_good_exact (fs : Nat) (pre : List (Nat × Bool)) :
    ∀ total rest, validTrace fs total (pre ++ rest) = true → total ≤ fs →
      GoodSteps pre → total + sumBytes pre = fs →
      relayLoop fs total (pre ++ rest) = some (true, fs) := by
  induction pre with
  | nil =>
    intro total rest _ _ _ hsum
    simp only [sumBytes, List.map_nil, List.sum_nil, Nat.add_zero] at hsum
    subst hsum
    cases rest with
    | nil => simp [relayLoop]
    | cons q rest' =>
      obtain ⟨n, b⟩ := q
      simp [relayLoop]
  | cons p pre' ih =>
    obtain ⟨n, b⟩ := p
    intro total rest hv hle hg hsum
    have hn : n ≠ 0 := (hg (n, b) (List.mem_cons_self _ _)).1
    have hb : b = true := (hg (n, b) (List.mem_cons_self _ _)).2
    have hsum' : sumBytes ((n, b) :: pre') = n + sumBytes pre' := by
      simp [sumBytes]
    have hfs : ¬ fs ≤ total := by rw [hsum'] at hsum; omega
    rw [List.cons_append] at hv ⊢
    simp only [validTrace, Bool.and_eq_true, decide_eq_true_eq] at hv
    obtain ⟨hv1, hv2⟩ := hv
    simp only [relayLoop]
    rw [if_neg hfs, if_neg hn, if_pos hb]
    exact ih (total + n) rest hv2
      (by have := Nat.min_le_left (fs - total) CHUNK_SIZE; omega)
      (fun q hq => hg q (List.mem_cons_of_mem _ hq))
      (by rw [hsum'] at hsum; omega)

/-- C4: on a well-formed trace, `streamFileData` ends successfully
exactly when `bytesMoved` reaches the declared size over fully
successful reads and forwards — a `(true, t)` result forces
`t = file_size`, and a run of good iterations summing to `file_size`
yields `(true, file_size)` — and it fails at the first iteration whose
`recv` returns zero or whose `send` fails while the running total is
still short of the size, reporting the bytes moved so far
(file_transfer.cpp:52-105). -/
theorem streamFileData_spec (file_size : Nat) (tr : List (Nat × Bool))
    (hv : validTrace file_size 0 tr = true) :
    (∀ t, streamFileData file_size tr = some (true, t) → t = file_size) ∧
    (∀ pre n b post, tr = pre ++ (n, b) :: post → GoodSteps pre →
       sumBytes pre < file_size → (n = 0 ∨ b = false) →
       streamFileData file_size tr = some (false, sumBytes pre)) ∧
    (∀ pre post, tr = pre ++ post → GoodSteps pre → sumBytes pre = file_size →
       streamFileData file_size tr = some (true, file_size)) := by
  refine ⟨?_, ?_, ?_⟩
  · exact fun t h => relayLoop_true_total file_size tr 0 hv (Nat.zero_le _) t h
  · intro pre n b post htr hg hlt hbad
    subst htr
    rw [streamFileData,
      relayLoop_append_good file_size pre 0 ((n, b) :: post) hg (by omega)]
    rw [Nat.zero_add]
    simp only [relayLoop]
    rw [if_neg (by omega : ¬ file_size ≤ sumBytes pre)]
    rcases hbad with rfl | hb
    · simp
    · by_cases hn : n = 0
      · rw [if_pos hn]
      · rw [if_neg hn]
        subst hb
        simp
  · intro pre post htr hg hsum
    subst htr
    exact relayLoop_good_exact file_size pre 0 post hv (Nat.zero_le _) hg (by omega)

/-- Witness for C4: a 5-byte transfer delivered in chunks of 3 and 2
completes with `bytesMoved = 5`. -/
theorem streamFileData_spec_witness :
    validTrace 5 0 [(3, true), (2, true)] = true ∧
    streamFileData 5 [(3, true), (2, true)] = some (true, 5) :=
  ⟨by decide,
   (streamFileData_spec 5 [(3, true), (2, true)] (by decide)).2.2
     [(3, true), (2, true)] [] (List.append_nil _).symm (by decide) (by decide)⟩

/-- Helper for C5: a nonempty delimiter-free string is one token. -/
lemma splitChar_no_delim (w : List Char) (hw1 : w ≠ []) (hw : ∀ c ∈ w, c ≠ ' ') :
    splitChar ' ' w = [w] := by
  induction w with
  | nil => exact absurd rfl hw1
  | cons c cs ih =>
    have hc : ¬(c = ' ') := hw c (List.mem_cons_self _ _)
    cases cs with
    | nil => simp [splitChar, hc]
    | cons d ds =>
      have ih2 := ih (by simp) (fun x hx => hw x (List.mem_cons_of_mem _ hx))
      rw [splitChar, if_neg hc, ih2]

/-- Helper for C5: a space-free token followed by a space peels off as
one token of the split. -/
lemma splitChar_append_token (w rest : List Char) (hw : ∀ c ∈ w, c ≠ ' ') :
    splitChar ' ' (w ++ ' ' :: rest) = w :: splitChar ' ' rest := by
  induction w with
  | nil => simp [splitChar]
  | cons c cs ih =>
    have hc : ¬(c = ' ') := hw c (List.mem_cons_self _ _)
    have ih2 := ih (fun x hx => hw x (List.mem_cons_of_mem _ hx))
    rw [List.cons_append]
    simp only [splitChar, if_neg hc]
    rw [ih2]

/-- C5 counterexample: the claim promises a size error for every
declared size greater than 10_485_760, but a size string above
`LONG_MAX` (here 10^20 - 1) makes `std::stol` throw
`std::out_of_range`; uncaught, it terminates the process, and no size
error is ever sent to anyone. -/
theorem sendfile_overflow_size_fatal :
    processMessage "/sendfile bob a.txt 99999999999999999999".data
      "alice".data 3 [] [] = .fatal := by decide

/-- C5 (amended): a `/sendfile` command whose declared size parses
within `long` range to a value that is zero, negative, or above
`10 * 1024 * 1024` is answered with the size error to the sender
alone; no Transfer is started, so no offer, prepare signal or byte
ever reaches the recipient (server.cpp:343-369).  A size string whose
value exceeds `LONG_MAX` instead aborts the server via an uncaught
`std::out_of_range` (see the counterexample above). -/
theorem sendfile_bad_size_rejected (target filename szs sender : List Char)
    (sock : Nat) (reg : Registry) (tr : List (Nat × Bool)) (v : Int)
    (ht : ∀ c ∈ target, c ≠ ' ') (hf : ∀ c ∈ filename, c ≠ ' ')
    (hs1 : szs ≠ []) (hs2 : ∀ c ∈ szs, c ≠ ' ')
    (hv : stol szs = some v) (hrange : v ≤ 0 ∨ 10 * 1024 * 1024 < v) :
    processMessage
        ("/sendfile ".data ++ target ++ " ".data ++ filename ++ " ".data ++ szs)
        sender sock reg tr = .ok [SrvAct.sendSock sock sizeErrMsg] := by
  have hmsg : "/sendfile ".data ++ target ++ " ".data ++ filename ++ " ".data ++ szs
      = "/sendfile".data ++ ' ' :: (target ++ ' ' :: (filename ++ ' ' :: szs)) := by
    have e1 : "/sendfile ".data = "/sendfile".data ++ [' '] := by decide
    have e2 : " ".data = ([' '] : List Char) := by decide
    rw [e1, e2]
    simp [List.append_assoc]
  rw [hmsg]
  have h1 : ¬("/sendfile".data ++ ' ' :: (target ++ ' ' :: (filename ++ ' ' :: szs))
      = "/list".data) := by
    intro h
    have h9 := congrArg (fun l => List.take 2 l) h
    simp only at h9
    rw [List.take_append_of_le_length (by decide)] at h9
    exact absurd h9 (by decide)
  have h2 : ¬(("/sendfile".data ++ ' ' :: (target ++ ' ' :: (filename ++ ' ' :: szs))).take 1
      = ['@']) := by
    rw [List.take_append_of_le_length (by decide)]
    decide
  have h3 : startsWithL "/sendfile".data
      ("/sendfile".data ++ ' ' :: (target ++ ' ' :: (filename ++ ' ' :: szs))) = true := by
    simp [startsWithL, List.take_left]
  have hsplit : splitChar ' ' ("/sendfile".data ++ ' ' :: (target ++ ' ' :: (filename ++ ' ' :: szs)))
      = "/sendfile".data :: target :: filename :: [szs] := by
    rw [splitChar_append_token _ _ (by decide)]
    rw [splitChar_append_token _ _ ht]
    rw [splitChar_append_token _ _ hf]
    rw [splitChar_no_delim szs hs1 hs2]
  simp only [processMessage]
  rw [if_neg h1, if_neg h2, if_pos h3]
  simp only [hsplit]
  rw [if_neg (by simp)]
  have hg3 : (["/sendfile".data, target, filename, szs] : List (List Char)).getD 3 [] =
      szs := rfl
  rw [hg3, hv]
  simp [encIf, encryptionEnabled]
  intro h1 h2
  rcases hrange with h | h
  · exact absurd h1 (by omega)
  · exact absurd h2 (by omega)

/-- Witness for C5: `/sendfile bob a.txt 0` draws the size error and
nothing else. -/
theorem sendfile_bad_size_rejected_witness :
    processMessage
        ("/sendfile ".data ++ "bob".data ++ " ".data ++ "a.txt".data ++
          " ".data ++ "0".data)
        "alice".data 3 [] [] = .ok [SrvAct.sendSock 3 sizeErrMsg] :=
  sendfile_bad_size_rejected "bob".data "a.txt".data "0".data "alice".data 3 [] [] 0
    (by decide) (by decide) (by decide) (by decide) (by decide) (Or.inl (by decide))
